import Mathlib

/-!
Shallow embedding of the AAC decoder stage in
src/media/libstagefright/codecs/aacdec/AACDecoder.cpp.

The decode engine (PVMP4AudioDecoder*) and the collaborators (upstream
MediaSource, MediaBufferGroup pool) are external to the stage; their
per-call responses enter the model as explicit oracle arguments, so every
theorem quantifies over all behaviours the collaborators can exhibit.
Fatal assertions (CHECK / CHECK_EQ, and null-pointer dereference of
mBufferGroup) are modelled as the `none` outcome of an `Option` result:
the process dies, no state is observable afterwards.
Raw pointer scratch fields of the engine config (pInputBuffer,
pOutputBuffer, pOutputBuffer_plus) carry no observable state in the
stage and are not modelled; the byte contents the engine writes appear
directly as the oracle field `afterDecode`.
-/

namespace AACDec

/-- `status_t` values the stage can observe or return. `OK` is 0 in the
source; the error constants are distinct negative codes, so an inductive
type with decidable equality is a faithful model. -/
inductive Status where
  | OK
  | ERROR_UNSUPPORTED
  | ERROR_END_OF_STREAM
  | ERROR_IO
  | ERROR_MALFORMED
deriving DecidableEq, Repr

/-- The fields of `tPVMP4AudioDecoderExternal` the stage reads or writes
(`mConfig`). `frameLength`, `inputBufferUsedLength` and `samplingRate`
are written by the engine during a decode call. -/
structure DecoderConfig where
  outputFormat : Nat
  aacPlusUpsamplingFactor : Nat
  aacPlusEnabled : Bool
  desiredChannels : Nat
  inputBufferCurrentLength : Nat
  inputBufferMaxLength : Nat
  inputBufferUsedLength : Nat
  remainderBits : Nat
  repositionFlag : Bool
  frameLength : Nat
  samplingRate : Nat
deriving DecidableEq, Repr

/-- Value of the enum constant `OUTPUTFORMAT_16PCM_INTERLEAVED`; the
stage only stores it, never inspects it, so the numeral is immaterial. -/
def OUTPUTFORMAT_16PCM_INTERLEAVED : Nat := 1

/-- A compressed access unit held as `mInputBuffer`: its range window
(`range_offset` / `range_length`) and the optional `kKeyTime` metadata. -/
structure InputUnit where
  offset : Nat
  length : Nat
  timeUs : Option Int
deriving DecidableEq, Repr

/-- An output `MediaBuffer` as returned from `read`: byte contents,
the range set by `set_range`, and the `kKeyTime` stamp. -/
structure MediaBufferOut where
  contents : List Nat
  rangeOffset : Nat
  rangeLength : Nat
  timeUs : Option Int
deriving DecidableEq, Repr

/-- The stateful fields of `AACDecoder`. `mBufferGroup` is modelled by
the list of capacities of the buffers added to the group (`none` = the
NULL pointer); `mDecoderBuf` by whether the malloc-ed engine scratch
block is currently held (`true` = non-null). -/
structure AACDecoderState where
  mStarted : Bool
  mBufferGroup : Option (List Nat)
  mConfig : DecoderConfig
  mDecoderBuf : Bool
  mAnchorTimeUs : Int
  mNumSamplesOutput : Nat
  mInputBuffer : Option InputUnit
deriving DecidableEq, Repr

/-- The constructor `AACDecoder::AACDecoder`. `new tPVMP4AudioDecoderExternal`
performs no field initialization, so the initial config is arbitrary and
enters as a parameter. -/
def initialState (cfg0 : DecoderConfig) : AACDecoderState :=
  { mStarted := false
    mBufferGroup := none
    mConfig := cfg0
    mDecoderBuf := false
    mAnchorTimeUs := 0
    mNumSamplesOutput := 0
    mInputBuffer := none }

/-- The ESDS blob found (or not) under `kKeyESDS` on the source's format:
whether `ESDS::InitCheck` returns OK, and the codec-specific-info size. -/
structure EsdsBlob where
  initOk : Bool
  codecSpecificSize : Nat
deriving DecidableEq, Repr

/-- The source format metadata the stage queries: `kKeySampleRate`,
`kKeyChannelCount`, `kKeyDuration`, `kKeyESDS`. -/
structure SourceMeta where
  sampleRate : Option Int
  channelCount : Option Int
  durationUs : Option Int
  esds : Option EsdsBlob
deriving DecidableEq, Repr

/-- Marks the tail of a successful `start`: `mSource->start()` (external),
then reset the timestamp accounting and set `mStarted`. -/
def markStarted (st : AACDecoderState) : AACDecoderState :=
  { st with mAnchorTimeUs := 0, mNumSamplesOutput := 0, mStarted := true }

/-- `AACDecoder::start`. Oracle arguments: the source's format metadata,
whether `PVMP4AudioDecoderInitLibrary` returns `MP4AUDEC_SUCCESS`
(failure is a fatal `CHECK_EQ`), and whether `PVMP4AudioDecoderConfig`
returns `MP4AUDEC_SUCCESS` (failure yields `ERROR_UNSUPPORTED`).
`malloc` of the engine scratch block is assumed to succeed, as the code
does. Note the `ERROR_UNSUPPORTED` return leaves `mBufferGroup` and
`mDecoderBuf` allocated and `mStarted` false. -/
def start (st : AACDecoderState) (meta : SourceMeta)
    (initLibraryOk : Bool) (configOk : Bool) :
    Option (Status × AACDecoderState) :=
  if st.mStarted then none
  else
    let cfg1 := { st.mConfig with
      outputFormat := OUTPUTFORMAT_16PCM_INTERLEAVED
      aacPlusUpsamplingFactor := 0
      aacPlusEnabled := false
      desiredChannels := 2 }
    let st1 := { st with
      mBufferGroup := some [2048 * 2]
      mConfig := cfg1
      mDecoderBuf := true }
    if initLibraryOk = false then none
    else
      match meta.esds with
      | none => some (Status.OK, markStarted st1)
      | some e =>
        if e.initOk = false then none
        else
          let cfg2 := { st1.mConfig with
            inputBufferCurrentLength := e.codecSpecificSize
            inputBufferMaxLength := 0
            inputBufferUsedLength := 0
            remainderBits := 0
            repositionFlag := false }
          let st2 := { st1 with mConfig := cfg2 }
          if configOk = false then some (Status.ERROR_UNSUPPORTED, st2)
          else some (Status.OK, markStarted st2)

/-- `AACDecoder::stop`: releases `mInputBuffer`, frees `mDecoderBuf`,
deletes `mBufferGroup`, stops the source (external), clears `mStarted`. -/
def stop (st : AACDecoderState) : Option AACDecoderState :=
  if st.mStarted = false then none
  else some { st with
    mInputBuffer := none
    mDecoderBuf := false
    mBufferGroup := none
    mStarted := false }

/-- The format descriptor `AACDecoder::getFormat` builds. -/
structure OutputFormat where
  mime : String
  channelCount : Int
  sampleRate : Int
  durationUs : Option Int
  decoderComponent : String
deriving DecidableEq, Repr

/-- `AACDecoder::getFormat`. The absent sample rate is a fatal `CHECK`.
The method writes no member of the stage, so the state comes back
unchanged. -/
def getFormat (st : AACDecoderState) (srcFormat : SourceMeta) :
    Option (OutputFormat × AACDecoderState) :=
  match srcFormat.sampleRate with
  | none => none
  | some sr =>
    some ({ mime := "audio/raw"
            channelCount := 2
            sampleRate := sr
            durationUs := srcFormat.durationUs
            decoderComponent := "AACDecoder" }, st)

/-- The `ReadOptions` the caller passes to `read`: the result of
`getSeekTo`. -/
structure ReadOptions where
  seekTimeUs : Option Int
deriving DecidableEq, Repr

/-- Per-call response of `PVMP4AudioDecodeFrame`: whether it returned
`MP4AUDEC_SUCCESS`, the post-call `frameLength`, `inputBufferUsedLength`
and `samplingRate` it stored into the config, and the output buffer
contents after the call. -/
structure EngineResult where
  success : Bool
  frameLength : Nat
  usedLength : Nat
  samplingRate : Nat
  afterDecode : List Nat
deriving DecidableEq, Repr

/-- `memset(p, 0, n)` on a byte list: zeroes the first `n` entries. -/
def memsetZero : List Nat → Nat → List Nat
  | l, 0 => l
  | [], _ + 1 => []
  | _ :: t, n + 1 => 0 :: memsetZero t n

/-- Step 1 of `read`: seek handling. Returns the `seekTimeUs` local
(−1 when no seek) and the state after the seek branch; a negative seek
target hits `CHECK(seekTimeUs >= 0)`. -/
def handleSeek (st : AACDecoderState) (options : Option ReadOptions) :
    Option (Int × AACDecoderState) :=
  match options with
  | some opts =>
    match opts.seekTimeUs with
    | some t =>
      if t < 0 then none
      else some (t, { st with mNumSamplesOutput := 0, mInputBuffer := none })
    | none => some (-1, st)
  | none => some (-1, st)

/-- Step 2 of `read`: when `mInputBuffer` is NULL, pull one unit from the
source. `src` is the source's response: a status and, when the status is
`OK`, the returned unit (the source contract guarantees a unit on `OK`;
a violation is unmodelled, hence `none`). `Sum.inl err` is the early
return propagating the source's non-OK status. A timestamped unit resets
the anchor; a timestamp-less unit after a seek hits
`CHECK(seekTimeUs < 0)`. -/
def ensureInput (st : AACDecoderState) (seekTimeUs : Int)
    (src : Status × Option InputUnit) : Option (Status ⊕ AACDecoderState) :=
  match st.mInputBuffer with
  | some _ => some (Sum.inr st)
  | none =>
    if src.1 ≠ Status.OK then some (Sum.inl src.1)
    else
      match src.2 with
      | none => none
      | some u =>
        let st2 := { st with mInputBuffer := some u }
        match u.timeUs with
        | some t =>
          some (Sum.inr { st2 with mAnchorTimeUs := t, mNumSamplesOutput := 0 })
        | none =>
          if seekTimeUs < 0 then some (Sum.inr st2) else none

/-- Step 8 of `read`: when `mInputBuffer` is still held, shrink its
window by `inputBufferUsedLength`; release it when the window length
reaches zero. -/
def advanceInput (st : AACDecoderState) (cfg : DecoderConfig) : AACDecoderState :=
  match st.mInputBuffer with
  | none => st
  | some ib =>
    let ib2 : InputUnit :=
      { offset := ib.offset + cfg.inputBufferUsedLength
        length := ib.length - cfg.inputBufferUsedLength
        timeUs := ib.timeUs }
    if ib2.length = 0 then { st with mInputBuffer := none }
    else { st with mInputBuffer := some ib2 }

/-- Steps 7–10 of `read`, shared by the success and the
silence-substitution branches: set the buffer range to
`[0, numOutBytes)`, advance the input window (`advanceInput`), stamp
`mAnchorTimeUs + (mNumSamplesOutput * 1000000) / samplingRate`, add
`frameLength` to `mNumSamplesOutput`, and return `(OK, buffer)`. -/
def finishRead (st : AACDecoderState) (cfg : DecoderConfig)
    (contents : List Nat) (numOutBytes : Nat) :
    Option (Status × Option MediaBufferOut × AACDecoderState) :=
  let st2 := advanceInput st cfg
  let ts : Int := st2.mAnchorTimeUs +
    (((st2.mNumSamplesOutput * 1000000) / cfg.samplingRate : Nat) : Int)
  some (Status.OK,
        some { contents := contents
               rangeOffset := 0
               rangeLength := numOutBytes
               timeUs := some ts },
        { st2 with mNumSamplesOutput := st2.mNumSamplesOutput + cfg.frameLength })

/-- Steps 3–6 of `read`: acquire one pool buffer (a NULL `mBufferGroup`
dereference or an acquire failure is fatal), point the engine at the
unconsumed window, run one decode step, compute
`numOutBytes = frameLength * sizeof(int16_t) * desiredChannels`, and on
engine failure substitute silence and discard the input unit. -/
def decodeStep (st : AACDecoderState) (acquireOk : Bool) (eng : EngineResult) :
    Option (Status × Option MediaBufferOut × AACDecoderState) :=
  match st.mBufferGroup with
  | none => none
  | some _ =>
    if acquireOk = false then none
    else
      match st.mInputBuffer with
      | none => none
      | some ib =>
        let cfg1 := { st.mConfig with
          inputBufferCurrentLength := ib.length
          inputBufferMaxLength := 0
          inputBufferUsedLength := 0
          remainderBits := 0
          repositionFlag := false }
        let cfg2 := { cfg1 with
          frameLength := eng.frameLength
          inputBufferUsedLength := eng.usedLength
          samplingRate := eng.samplingRate }
        let numOutBytes := cfg2.frameLength * 2 * cfg2.desiredChannels
        if eng.success = false then
          finishRead { st with mConfig := cfg2, mInputBuffer := none } cfg2
            (memsetZero eng.afterDecode numOutBytes) numOutBytes
        else
          finishRead { st with mConfig := cfg2 } cfg2 eng.afterDecode numOutBytes

/-- `AACDecoder::read`. The result is `(status, out, post-state)`; `out`
mirrors the `*out` pointer, NULL-initialized on entry and only assigned
on the successful return path. -/
def read (st : AACDecoderState) (options : Option ReadOptions)
    (src : Status × Option InputUnit) (acquireOk : Bool) (eng : EngineResult) :
    Option (Status × Option MediaBufferOut × AACDecoderState) :=
  match handleSeek st options with
  | none => none
  | some (seekTimeUs, st1) =>
    match ensureInput st1 seekTimeUs src with
    | none => none
    | some (Sum.inl err) => some (err, none, st1)
    | some (Sum.inr st2) => decodeStep st2 acquireOk eng

/-- One external call on the stage, together with the responses of
every collaborator that call consults. -/
inductive Op where
  | opStart (meta : SourceMeta) (initLibraryOk configOk : Bool)
  | opStop
  | opRead (options : Option ReadOptions) (src : Status × Option InputUnit)
      (acquireOk : Bool) (eng : EngineResult)
  | opGetFormat (meta : SourceMeta)

/-- Apply one operation; `none` is a fatal CHECK. The returned status is
the one the caller observes (`stop` and `getFormat` report `OK`). -/
def applyOp (st : AACDecoderState) : Op → Option (Status × AACDecoderState)
  | Op.opStart meta il cok => start st meta il cok
  | Op.opStop => (stop st).map (fun st2 => (Status.OK, st2))
  | Op.opRead opts src acq eng =>
      (read st opts src acq eng).map (fun r => (r.1, r.2.2))
  | Op.opGetFormat meta => (getFormat st meta).map (fun r => (Status.OK, r.2))

/-- Run a sequence of operations, collecting the observed statuses. -/
def runOps (st : AACDecoderState) : List Op → Option (AACDecoderState × List Status)
  | [] => some (st, [])
  | op :: rest =>
    match applyOp st op with
    | none => none
    | some (s, st2) =>
      match runOps st2 rest with
      | none => none
      | some (stF, sts) => some (stF, s :: sts)

/-- The spec invariant tying the engine scratch block to the lifecycle
flag: `engineState` (mDecoderBuf) is non-null iff `started` is true. -/
def engineInv (st : AACDecoderState) : Prop :=
  st.mDecoderBuf = true ↔ st.mStarted = true

instance (st : AACDecoderState) : Decidable (engineInv st) := by
  unfold engineInv
  infer_instance

/-! ### Concrete fixtures used by witnesses and counterexamples -/

/-- An all-zero initial engine config (the constructor leaves it
uninitialized; any value works for the concrete runs below). -/
def cfgZ : DecoderConfig :=
  { outputFormat := 0, aacPlusUpsamplingFactor := 0, aacPlusEnabled := false
    desiredChannels := 0, inputBufferCurrentLength := 0, inputBufferMaxLength := 0
    inputBufferUsedLength := 0, remainderBits := 0, repositionFlag := false
    frameLength := 0, samplingRate := 0 }

/-- Source metadata with a sample rate and no ESDS blob. -/
def metaOk : SourceMeta :=
  { sampleRate := some 44100, channelCount := some 1
    durationUs := none, esds := none }

/-- Source metadata carrying a well-formed ESDS blob. -/
def metaEsds : SourceMeta :=
  { sampleRate := some 44100, channelCount := some 2
    durationUs := some 1000, esds := some { initOk := true, codecSpecificSize := 2 } }

/-- The stage right after a successful `start` from fresh construction. -/
def stStarted : AACDecoderState :=
  match start (initialState cfgZ) metaOk true true with
  | some (_, s) => s
  | none => initialState cfgZ

/-- The stage after `start` rejected the codec configuration
(`ERROR_UNSUPPORTED`). -/
def stFailedStart : AACDecoderState :=
  match start (initialState cfgZ) metaEsds true false with
  | some (_, s) => s
  | none => initialState cfgZ

/-- A pending compressed unit with a 7-byte unconsumed window. -/
def ibEx : InputUnit := { offset := 10, length := 7, timeUs := some 5000 }

/-- A started stage holding `ibEx` as `mInputBuffer`, with nonzero
timestamp accounting. -/
def stWithInput : AACDecoderState :=
  { stStarted with mInputBuffer := some ibEx
                   mAnchorTimeUs := 30000, mNumSamplesOutput := 2048 }

/-- A successful engine step: 1024 frames, 3 bytes consumed. -/
def engOk : EngineResult :=
  { success := true, frameLength := 1024, usedLength := 3
    samplingRate := 44100, afterDecode := [9, 9, 9, 9, 9] }

/-- A failing engine step (decoder error), same bookkeeping values. -/
def engBad : EngineResult :=
  { success := false, frameLength := 1024, usedLength := 3
    samplingRate := 44100, afterDecode := [9, 9, 9, 9, 9] }

/-- A compressed unit carrying no `kKeyTime` metadata. -/
def ibNoTs : InputUnit := { offset := 0, length := 4, timeUs := none }

/-- A successful start followed by a stop. -/
def opsC1 : List Op := [Op.opStart metaOk true true, Op.opStop]

/-- The state reached by running `opsC1` from fresh construction. -/
def c1Final : AACDecoderState :=
  match runOps (initialState cfgZ) opsC1 with
  | some (s, _) => s
  | none => initialState cfgZ

/-! ### Helper lemmas -/

/-- The first `n` bytes after `memset(_, 0, n)` are zero. -/
theorem memsetZero_take_zero (l : List Nat) (n : Nat) :
    ∀ x ∈ (memsetZero l n).take n, x = 0 := by
  induction l generalizing n with
  | nil =>
    intro x hx
    cases n with
    | zero => simp at hx
    | succ m => simp [memsetZero] at hx
  | cons a t ih =>
    intro x hx
    cases n with
    | zero => simp at hx
    | succ m =>
      simp only [memsetZero, List.take_succ_cons, List.mem_cons] at hx
      rcases hx with h | h
      · exact h
      · exact ih m x h

/-- `memsetZero` never changes the list length. -/
theorem memsetZero_length (l : List Nat) (n : Nat) :
    (memsetZero l n).length = l.length := by
  induction l generalizing n with
  | nil => cases n <;> simp [memsetZero]
  | cons a t ih =>
    cases n with
    | zero => rfl
    | succ m => simp [memsetZero, ih]

def lifecycleEq (a b : AACDecoderState) : Prop :=
  a.mStarted = b.mStarted ∧ a.mDecoderBuf = b.mDecoderBuf ∧
  a.mBufferGroup = b.mBufferGroup

theorem advanceInput_fields (st : AACDecoderState) (cfg : DecoderConfig) :
    lifecycleEq (advanceInput st cfg) st ∧
    (advanceInput st cfg).mAnchorTimeUs = st.mAnchorTimeUs ∧
    (advanceInput st cfg).mNumSamplesOutput = st.mNumSamplesOutput := by
  unfold advanceInput
  cases st.mInputBuffer with
  | none => exact ⟨⟨rfl, rfl, rfl⟩, rfl, rfl⟩
  | some ib =>
    simp only []
    split
    · exact ⟨⟨rfl, rfl, rfl⟩, rfl, rfl⟩
    · exact ⟨⟨rfl, rfl, rfl⟩, rfl, rfl⟩

theorem finishRead_shape {st st3 : AACDecoderState} {cfg : DecoderConfig}
    {contents : List Nat} {numOutBytes : Nat} {s : Status}
    {o : Option MediaBufferOut}
    (h : finishRead st cfg contents numOutBytes = some (s, o, st3)) :
    s = Status.OK ∧ o ≠ none ∧ lifecycleEq st3 st := by
  simp only [finishRead, Option.some.injEq, Prod.mk.injEq] at h
  obtain ⟨rfl, rfl, rfl⟩ := h
  refine ⟨rfl, by simp, ?_⟩
  have ha := advanceInput_fields st cfg
  exact ⟨ha.1.1, ha.1.2.1, ha.1.2.2⟩

theorem decodeStep_shape {st st3 : AACDecoderState} {acq : Bool}
    {eng : EngineResult} {s : Status} {o : Option MediaBufferOut}
    (h : decodeStep st acq eng = some (s, o, st3)) :
    s = Status.OK ∧ o ≠ none ∧ lifecycleEq st3 st := by
  unfold decodeStep at h
  repeat' split at h
  all_goals try simp only [reduceCtorEq] at h
  all_goals
    have hs := finishRead_shape h
  all_goals exact ⟨hs.1, hs.2.1, hs.2.2⟩

theorem handleSeek_shape {st st1 : AACDecoderState}
    {opts : Option ReadOptions} {t : Int}
    (h : handleSeek st opts = some (t, st1)) : lifecycleEq st1 st := by
  unfold handleSeek at h
  repeat' split at h
  all_goals try simp only [reduceCtorEq] at h
  all_goals simp only [Option.some.injEq, Prod.mk.injEq] at h
  all_goals obtain ⟨-, rfl⟩ := h
  all_goals exact ⟨rfl, rfl, rfl⟩

theorem ensureInput_shape {st st2 : AACDecoderState} {t : Int}
    {src : Status × Option InputUnit}
    (h : ensureInput st t src = some (Sum.inr st2)) : lifecycleEq st2 st := by
  unfold ensureInput at h
  repeat' split at h
  all_goals try simp only [reduceCtorEq, Option.some.injEq] at h
  all_goals simp only [Sum.inr.injEq] at h
  all_goals subst h
  all_goals exact ⟨rfl, rfl, rfl⟩

theorem read_shape {st st2 : AACDecoderState} {opts : Option ReadOptions}
    {src : Status × Option InputUnit} {acq : Bool} {eng : EngineResult}
    {s : Status} {o : Option MediaBufferOut}
    (h : read st opts src acq eng = some (s, o, st2)) :
    (s = Status.OK ∨ o = none) ∧ lifecycleEq st2 st := by
  unfold read at h
  split at h
  · simp only [reduceCtorEq] at h
  · rename_i seekRes t1 st1 heq
    split at h
    · simp only [reduceCtorEq] at h
    · rename_i e heq2
      simp only [Option.some.injEq, Prod.mk.injEq] at h
      obtain ⟨-, rfl, rfl⟩ := h
      exact ⟨Or.inr rfl, handleSeek_shape heq⟩
    · rename_i stMid heq2
      have h1 := handleSeek_shape heq
      have h2 := ensureInput_shape heq2
      have h3 := decodeStep_shape h
      refine ⟨Or.inl h3.1, ?_⟩
      exact ⟨h3.2.2.1.trans (h2.1.trans h1.1), h3.2.2.2.1.trans (h2.2.1.trans h1.2.1),
             h3.2.2.2.2.trans (h2.2.2.trans h1.2.2)⟩


theorem start_engineInv {st st2 : AACDecoderState} {meta : SourceMeta}
    {il cok : Bool} {s : Status}
    (h : start st meta il cok = some (s, st2)) (hs : s ≠ Status.ERROR_UNSUPPORTED) :
    engineInv st2 := by
  unfold start markStarted at h
  repeat' split at h
  all_goals try simp only [reduceCtorEq] at h
  all_goals simp only [Option.some.injEq, Prod.mk.injEq] at h
  all_goals obtain ⟨h1, rfl⟩ := h
  all_goals first
    | exact absurd h1.symm hs
    | exact ⟨fun _ => rfl, fun _ => rfl⟩

theorem stop_engineInv {st st2 : AACDecoderState} (h : stop st = some st2) :
    engineInv st2 := by
  unfold stop at h
  split at h
  · simp only [reduceCtorEq] at h
  · simp only [Option.some.injEq] at h
    subst h
    exact ⟨fun hx => absurd hx (by simp), fun hx => absurd hx (by simp)⟩

theorem getFormat_state_id {st st2 : AACDecoderState} {meta : SourceMeta}
    {f : OutputFormat} (h : getFormat st meta = some (f, st2)) : st2 = st := by
  unfold getFormat at h
  split at h
  · simp only [reduceCtorEq] at h
  · simp only [Option.some.injEq, Prod.mk.injEq] at h
    exact h.2.symm

theorem runOps_engineInv {ops : List Op} :
    ∀ {st stF : AACDecoderState} {sts : List Status}, engineInv st →
    runOps st ops = some (stF, sts) → Status.ERROR_UNSUPPORTED ∉ sts →
    engineInv stF := by
  induction ops with
  | nil =>
    intro st stF sts hInv h hMem
    simp only [runOps, Option.some.injEq, Prod.mk.injEq] at h
    obtain ⟨rfl, -⟩ := h
    exact hInv
  | cons op rest ih =>
    intro st stF sts hInv h hMem
    cases hap : applyOp st op with
    | none => simp only [runOps, hap, reduceCtorEq] at h
    | some r =>
      obtain ⟨s1, stMid⟩ := r
      simp only [runOps, hap] at h
      cases hrun : runOps stMid rest with
      | none => simp only [hrun, reduceCtorEq] at h
      | some r2 =>
        obtain ⟨stF2, sts2⟩ := r2
        simp only [hrun, Option.some.injEq, Prod.mk.injEq] at h
        obtain ⟨rfl, rfl⟩ := h
        have hs1 : s1 ≠ Status.ERROR_UNSUPPORTED := by
          intro hcon
          exact hMem (by simp [hcon])
        have hMem2 : Status.ERROR_UNSUPPORTED ∉ sts2 := by
          intro hcon
          exact hMem (by simp [hcon])
        have hInvMid : engineInv stMid := by
          cases op with
          | opStart meta il cok =>
            simp only [applyOp] at hap
            exact start_engineInv hap hs1
          | opStop =>
            simp only [applyOp] at hap
            cases hstop : stop st with
            | none => simp [hstop] at hap
            | some st3 =>
              rw [hstop] at hap
              simp only [Option.map_some', Option.some.injEq, Prod.mk.injEq] at hap
              obtain ⟨-, rfl⟩ := hap
              exact stop_engineInv hstop
          | opRead opts src acq eng =>
            simp only [applyOp] at hap
            cases hread : read st opts src acq eng with
            | none => simp [hread] at hap
            | some r3 =>
              obtain ⟨s3, o3, st3⟩ := r3
              rw [hread] at hap
              simp only [Option.map_some', Option.some.injEq, Prod.mk.injEq] at hap
              obtain ⟨-, rfl⟩ := hap
              have hl := (read_shape hread).2
              unfold engineInv at hInv ⊢
              rw [hl.2.1, hl.1]
              exact hInv
          | opGetFormat meta =>
            simp only [applyOp] at hap
            cases hgf : getFormat st meta with
            | none => simp [hgf] at hap
            | some r3 =>
              obtain ⟨f3, st3⟩ := r3
              rw [hgf] at hap
              simp only [Option.map_some', Option.some.injEq, Prod.mk.injEq] at hap
              obtain ⟨-, rfl⟩ := hap
              rw [getFormat_state_id hgf]
              exact hInv
        exact ih hInvMid hrun hMem2


/-! ### Claim theorems -/

/-- C1 (amended): over every sequence of operations from fresh
construction in which no call reports the unsupported-format error, the
engine scratch state (`mDecoderBuf`) is non-null iff `started` is true;
the invariant holds after every successful `start` and every `stop`. (As
stated over all sequences it fails: a `start` returning
`ERROR_UNSUPPORTED` leaves the scratch block allocated with `started`
still false; see the counterexample.) -/
theorem aac_C1_engine_state_iff_started (cfg0 : DecoderConfig) (ops : List Op)
    (stF : AACDecoderState) (sts : List Status)
    (h : runOps (initialState cfg0) ops = some (stF, sts))
    (hns : Status.ERROR_UNSUPPORTED ∉ sts) :
    engineInv stF :=
  runOps_engineInv (Iff.rfl : engineInv (initialState cfg0)) h hns

/-- C1, counterexample to the claim as stated: after a `start` that
returns the unsupported-format error, the engine scratch block is still
held (`mDecoderBuf` non-null) while `started` is false — the error path
of `start` frees neither `mDecoderBuf` nor `mBufferGroup`. -/
theorem aac_C1_counterexample :
    start (initialState cfgZ) metaEsds true false =
      some (Status.ERROR_UNSUPPORTED, stFailedStart) ∧
    stFailedStart.mDecoderBuf = true ∧ stFailedStart.mStarted = false := by
  decide

/-- C1, witness: the invariant at the concrete state reached by a
successful start followed by a stop. -/
theorem aac_C1_witness : engineInv c1Final :=
  aac_C1_engine_state_iff_started cfgZ opsC1 c1Final [Status.OK, Status.OK]
    (by decide) (by decide)

/-- C2 (amended): every return from `start` (success or
unsupported-format error) leaves the pool holding exactly one output
buffer of capacity `2048 * 2` = 4096 bytes — one maximal frame of 1024
samples × 2 channels × 2 bytes per sample, not the 8192 bytes (2048
samples × 2 channels × 2 bytes) the claim states. -/
theorem aac_C2_pool_capacity (st st2 : AACDecoderState) (meta : SourceMeta)
    (il cok : Bool) (s : Status)
    (h : start st meta il cok = some (s, st2)) :
    st2.mBufferGroup = some [2048 * 2] := by
  unfold start markStarted at h
  repeat' split at h
  all_goals try simp only [reduceCtorEq] at h
  all_goals simp only [Option.some.injEq, Prod.mk.injEq] at h
  all_goals obtain ⟨-, rfl⟩ := h
  all_goals rfl

/-- C2, counterexample to the claim as stated: the single pooled buffer
has capacity 4096 bytes, not 8192. -/
theorem aac_C2_counterexample :
    start (initialState cfgZ) metaOk true true = some (Status.OK, stStarted) ∧
    stStarted.mBufferGroup = some [4096] ∧
    stStarted.mBufferGroup ≠ some [8192] := by
  decide

/-- C2, witness at a concrete start. -/
theorem aac_C2_witness : stStarted.mBufferGroup = some [2048 * 2] :=
  aac_C2_pool_capacity (initialState cfgZ) stStarted metaOk true true Status.OK
    (by decide)

/-- C3: when the engine's decode step fails, `read` still returns `OK`
with the acquired buffer: the buffer's first
`frameLength * 2 bytes * 2 channels` bytes are zero-filled, its range is
`[0, outputSize)`, and `pendingInput` is released and cleared even if it
had unconsumed bytes; the decode error is never surfaced. -/
theorem aac_C3_decode_failure_silence (st : AACDecoderState) (g : List Nat)
    (ib : InputUnit) (eng : EngineResult) (src : Status × Option InputUnit)
    (hg : st.mBufferGroup = some g) (hib : st.mInputBuffer = some ib)
    (hch : st.mConfig.desiredChannels = 2) (hfail : eng.success = false) :
    ∃ buf st2, read st none src true eng = some (Status.OK, some buf, st2) ∧
      buf.rangeOffset = 0 ∧ buf.rangeLength = eng.frameLength * 2 * 2 ∧
      (∀ x ∈ buf.contents.take (eng.frameLength * 2 * 2), x = 0) ∧
      st2.mInputBuffer = none := by
  simp [read, handleSeek, ensureInput, hib, decodeStep, hg, hfail, finishRead,
    advanceInput, hch]
  exact ⟨_, _, ⟨rfl, rfl⟩, rfl, rfl, memsetZero_take_zero _ _, rfl⟩

/-- C3, witness: a concrete failing decode step on a held input unit. -/
theorem aac_C3_witness :
    ∃ buf st2, read stWithInput none (Status.OK, none) true engBad =
        some (Status.OK, some buf, st2) ∧
      buf.rangeOffset = 0 ∧ buf.rangeLength = engBad.frameLength * 2 * 2 ∧
      (∀ x ∈ buf.contents.take (engBad.frameLength * 2 * 2), x = 0) ∧
      st2.mInputBuffer = none :=
  aac_C3_decode_failure_silence stWithInput [2048 * 2] ibEx engBad
    (Status.OK, none) (by decide) (by decide) (by decide) (by decide)

/-- C4: the timestamp stamped on the returned buffer equals
`anchorTimeUs + (samplesEmittedSinceAnchor * 1000000) / engineSampleRate`
in integer arithmetic, using the pre-increment sample count and the
engine-reported sample rate; afterwards the sample count is incremented
by the frame count of this call, on the silence-substitution branch
(`eng.success` is unconstrained) as well as on success. -/
theorem aac_C4_timestamp_formula (st : AACDecoderState) (g : List Nat)
    (ib : InputUnit) (eng : EngineResult) (src : Status × Option InputUnit)
    (hg : st.mBufferGroup = some g) (hib : st.mInputBuffer = some ib) :
    ∃ buf st2, read st none src true eng = some (Status.OK, some buf, st2) ∧
      buf.timeUs = some (st.mAnchorTimeUs +
        (((st.mNumSamplesOutput * 1000000) / eng.samplingRate : Nat) : Int)) ∧
      st2.mNumSamplesOutput = st.mNumSamplesOutput + eng.frameLength := by
  cases hsucc : eng.success with
  | false =>
    simp [read, handleSeek, ensureInput, hib, decodeStep, hg, hsucc, finishRead,
      advanceInput]
    exact ⟨_, _, ⟨rfl, rfl⟩, rfl, rfl⟩
  | true =>
    by_cases hz : ib.length - eng.usedLength = 0
    · simp [read, handleSeek, ensureInput, hib, decodeStep, hg, hsucc, finishRead,
        advanceInput, hz]
      exact ⟨_, _, ⟨rfl, rfl⟩, rfl, rfl⟩
    · simp [read, handleSeek, ensureInput, hib, decodeStep, hg, hsucc, finishRead,
        advanceInput, hz]
      exact ⟨_, _, ⟨rfl, rfl⟩, rfl, rfl⟩

/-- C4, witness: a concrete successful decode on a held input unit. -/
theorem aac_C4_witness :
    ∃ buf st2, read stWithInput none (Status.OK, none) true engOk =
        some (Status.OK, some buf, st2) ∧
      buf.timeUs = some (stWithInput.mAnchorTimeUs +
        (((stWithInput.mNumSamplesOutput * 1000000) / engOk.samplingRate : Nat) : Int)) ∧
      st2.mNumSamplesOutput = stWithInput.mNumSamplesOutput + engOk.frameLength :=
  aac_C4_timestamp_formula stWithInput [2048 * 2] ibEx engOk (Status.OK, none)
    (by decide) (by decide)

/-- C5: when `pendingInput` is absent and the upstream read returns a
non-OK status, `read` returns exactly that status with the state
untouched, and the result does not depend on the buffer-pool or engine
oracles (no buffer is acquired, the engine is not invoked). -/
theorem aac_C5_upstream_error_propagation (st : AACDecoderState) (e : Status)
    (u : Option InputUnit) (acq1 acq2 : Bool) (eng1 eng2 : EngineResult)
    (hib : st.mInputBuffer = none) (he : e ≠ Status.OK) :
    read st none (e, u) acq1 eng1 = some (e, none, st) ∧
    read st none (e, u) acq1 eng1 = read st none (e, u) acq2 eng2 := by
  constructor <;> simp [read, handleSeek, ensureInput, hib, he]

/-- C5, witness: end-of-stream propagated at a concrete started state. -/
theorem aac_C5_witness :
    read stStarted none (Status.ERROR_END_OF_STREAM, none) true engOk =
      some (Status.ERROR_END_OF_STREAM, none, stStarted) ∧
    read stStarted none (Status.ERROR_END_OF_STREAM, none) true engOk =
      read stStarted none (Status.ERROR_END_OF_STREAM, none) false engBad :=
  aac_C5_upstream_error_propagation stStarted Status.ERROR_END_OF_STREAM none
    true false engOk engBad (by decide) (by decide)

/-- C6: on a successful decode step with `pendingInput` held, the input
window advances by exactly the engine-reported consumed byte count
(offset up, length down), and `pendingInput` is released exactly when
the remaining window length reaches zero. The bound `hle` records the
engine contract that it consumes at most the bytes offered. -/
theorem aac_C6_input_window_advance (st : AACDecoderState) (g : List Nat)
    (ib : InputUnit) (eng : EngineResult) (src : Status × Option InputUnit)
    (hg : st.mBufferGroup = some g) (hib : st.mInputBuffer = some ib)
    (hok : eng.success = true) (hle : eng.usedLength ≤ ib.length) :
    ∃ buf st2, read st none src true eng = some (Status.OK, some buf, st2) ∧
      st2.mInputBuffer = (if ib.length - eng.usedLength = 0 then none
        else some { offset := ib.offset + eng.usedLength
                    length := ib.length - eng.usedLength
                    timeUs := ib.timeUs }) := by
  by_cases hz : ib.length - eng.usedLength = 0
  · simp [read, handleSeek, ensureInput, hib, decodeStep, hg, hok, finishRead,
      advanceInput, hz]
    exact ⟨_, _, ⟨rfl, rfl⟩, rfl⟩
  · simp [read, handleSeek, ensureInput, hib, decodeStep, hg, hok, finishRead,
      advanceInput, hz]
    exact ⟨_, _, ⟨rfl, rfl⟩, rfl⟩

/-- C6, witness: a concrete partial consumption (3 of 7 bytes). -/
theorem aac_C6_witness :
    ∃ buf st2, read stWithInput none (Status.OK, none) true engOk =
        some (Status.OK, some buf, st2) ∧
      st2.mInputBuffer = (if ibEx.length - engOk.usedLength = 0 then none
        else some { offset := ibEx.offset + engOk.usedLength
                    length := ibEx.length - engOk.usedLength
                    timeUs := ibEx.timeUs }) :=
  aac_C6_input_window_advance stWithInput [2048 * 2] ibEx engOk (Status.OK, none)
    (by decide) (by decide) (by decide) (by decide)

/-- C7: a read whose options carry a seek timestamp `t ≥ 0` resets
`samplesEmittedSinceAnchor` to 0 and releases `pendingInput` before the
upstream pull (visible in the returned state when the pull fails), and a
negative seek timestamp is fatal (`CHECK(seekTimeUs >= 0)`). -/
theorem aac_C7_seek_reset (st : AACDecoderState) (t t2 : Int) (e : Status)
    (u : Option InputUnit) (src2 : Status × Option InputUnit)
    (acq acq2 : Bool) (eng eng2 : EngineResult)
    (ht : 0 ≤ t) (he : e ≠ Status.OK) (ht2 : t2 < 0) :
    read st (some { seekTimeUs := some t }) (e, u) acq eng =
      some (e, none, { st with mNumSamplesOutput := 0, mInputBuffer := none }) ∧
    read st (some { seekTimeUs := some t2 }) src2 acq2 eng2 = none := by
  constructor
  · simp [read, handleSeek, ensureInput, he, not_lt.mpr ht]
  · simp [read, handleSeek, ht2]

/-- C7, witness: a concrete seek to 100 µs on a stage holding an input
unit, with the upstream pull reporting end of stream; and a concrete
negative seek target. -/
theorem aac_C7_witness :
    read stWithInput (some { seekTimeUs := some 100 })
        (Status.ERROR_END_OF_STREAM, none) true engOk =
      some (Status.ERROR_END_OF_STREAM, none,
        { stWithInput with mNumSamplesOutput := 0, mInputBuffer := none }) ∧
    read stWithInput (some { seekTimeUs := some (-5) }) (Status.OK, none)
      true engOk = none :=
  aac_C7_seek_reset stWithInput 100 (-5) Status.ERROR_END_OF_STREAM none
    (Status.OK, none) true true engOk engOk (by decide) (by decide) (by decide)

/-- C8: when `read` pulls a fresh unit, a unit carrying a timestamp `ts`
makes `ts` the new anchor with the sample count restarted (so it equals
this call's frame count afterwards, and the stamped time is
`ts + 0/rate`); a timestamp-less unit pulled on a call that requested a
seek (`t ≥ 0`) hits the fatal consistency assertion
(`CHECK(seekTimeUs < 0)`). -/
theorem aac_C8_anchor_update (st : AACDecoderState) (g : List Nat)
    (u u2 : InputUnit) (ts t : Int) (eng eng2 : EngineResult) (acq2 : Bool)
    (hg : st.mBufferGroup = some g) (hib : st.mInputBuffer = none)
    (hts : u.timeUs = some ts) (ht : 0 ≤ t) (hu2 : u2.timeUs = none) :
    (∃ buf st2, read st none (Status.OK, some u) true eng =
        some (Status.OK, some buf, st2) ∧
      st2.mAnchorTimeUs = ts ∧ st2.mNumSamplesOutput = eng.frameLength ∧
      buf.timeUs = some (ts + (((0 * 1000000) / eng.samplingRate : Nat) : Int))) ∧
    read st (some { seekTimeUs := some t }) (Status.OK, some u2) acq2 eng2 = none := by
  constructor
  · cases hsucc : eng.success with
    | false =>
      simp [read, handleSeek, ensureInput, hib, hts, decodeStep, hg, hsucc,
        finishRead, advanceInput]
      exact ⟨_, _, ⟨rfl, rfl⟩, rfl, rfl, rfl⟩
    | true =>
      by_cases hz : u.length - eng.usedLength = 0
      · simp [read, handleSeek, ensureInput, hib, hts, decodeStep, hg, hsucc,
          finishRead, advanceInput, hz]
        exact ⟨_, _, ⟨rfl, rfl⟩, rfl, rfl, rfl⟩
      · simp [read, handleSeek, ensureInput, hib, hts, decodeStep, hg, hsucc,
          finishRead, advanceInput, hz]
        exact ⟨_, _, ⟨rfl, rfl⟩, rfl, rfl, rfl⟩
  · simp [read, handleSeek, ensureInput, hu2, not_lt.mpr ht]

/-- C8, witness: a concrete timestamped pull, and a concrete
timestamp-less pull right after a seek. -/
theorem aac_C8_witness :
    (∃ buf st2, read stStarted none (Status.OK, some ibEx) true engOk =
        some (Status.OK, some buf, st2) ∧
      st2.mAnchorTimeUs = 5000 ∧ st2.mNumSamplesOutput = engOk.frameLength ∧
      buf.timeUs = some (5000 + (((0 * 1000000) / engOk.samplingRate : Nat) : Int))) ∧
    read stStarted (some { seekTimeUs := some 100 }) (Status.OK, some ibNoTs)
      true engOk = none :=
  aac_C8_anchor_update stStarted [2048 * 2] ibEx ibNoTs 5000 100 engOk engOk
    true (by decide) (by decide) (by decide) (by decide) (by decide)

/-- C9: `getFormat` on a source format carrying a sample rate returns a
descriptor with MIME type raw PCM audio, channel count exactly 2
independent of the source's channel count, the source's sample rate, the
duration copied exactly when present, and the decoder-component tag; the
stage state is returned unchanged (no side effects). -/
theorem aac_C9_getFormat_stereo (st : AACDecoderState)
    (srcFormat : SourceMeta) (sr : Int)
    (h : srcFormat.sampleRate = some sr) :
    getFormat st srcFormat = some ({ mime := "audio/raw"
                                     channelCount := 2
                                     sampleRate := sr
                                     durationUs := srcFormat.durationUs
                                     decoderComponent := "AACDecoder" }, st) := by
  simp [getFormat, h]

/-- C9, witness: a concrete source format (input channel count 2, with a
duration). The universally quantified `srcFormat` in the theorem covers
input channel counts 1 and 2 alike. -/
theorem aac_C9_witness :
    getFormat stStarted metaEsds = some ({ mime := "audio/raw"
                                           channelCount := 2
                                           sampleRate := 44100
                                           durationUs := metaEsds.durationUs
                                           decoderComponent := "AACDecoder" },
                                         stStarted) :=
  aac_C9_getFormat_stereo stStarted metaEsds 44100 (by decide)

/-- C10: whenever `read` returns a non-OK status, the out-parameter the
caller observes is `none` (it is NULL-initialized on entry and only
assigned on the successful return path). -/
theorem aac_C10_out_null_on_error (st st2 : AACDecoderState)
    (opts : Option ReadOptions) (src : Status × Option InputUnit) (acq : Bool)
    (eng : EngineResult) (s : Status) (o : Option MediaBufferOut)
    (h : read st opts src acq eng = some (s, o, st2)) (hs : s ≠ Status.OK) :
    o = none := by
  rcases (read_shape h).1 with hOk | hNone
  · exact absurd hOk hs
  · exact hNone

/-- C10, witness: the out-parameter at a concrete end-of-stream return. -/
theorem aac_C10_witness : (none : Option MediaBufferOut) = none :=
  aac_C10_out_null_on_error stStarted stStarted none
    (Status.ERROR_END_OF_STREAM, none) true engOk Status.ERROR_END_OF_STREAM
    none (by decide) (by decide)

end AACDec
